import Mathlib

/-!
Verification of the deadline-cloud client excerpts: the paginated,
filtered resource-listing client (`api.list_queues` and its pagination
helper, modelled from the specification since only its tests appear in
the sources), the `deadline handle-web-url` CLI command, and the
`SubmitJobToDeadlineDialog.refresh_deadline_settings` method.
-/

namespace DeadlineCloud

/-! ## Resource listing client (pagination + filter resolution) -/

/-- A resource returned by the listing endpoint.  The component treats
resources as opaque; we model them by an identifier. -/
abbrev Resource := Nat

/-- Modelled from the spec: one batch of resources returned by a single
listing call, plus an optional continuation token
(`{ resources: Resource[], continuationToken?: string }`). -/
structure Page where
  resources : List Resource
  nextToken : Option String
  deriving Repr, DecidableEq

/-- An error surfaced by an underlying service call. -/
inductive SvcError where
  | svc (code : Nat)
  | noResponse
  deriving Repr, DecidableEq

/-- Modelled from the spec: one outbound listing request as issued to the
remote endpoint: `call(filter?: string, continuationToken?: string)`.
`filter = none` means the filter argument is absent from the call
(not an empty string). -/
structure Request where
  filter : Option String
  nextToken : Option String
  deriving Repr, DecidableEq

/-- Modelled from the spec: the caller-supplied filter argument, keeping
the three-way distinction the spec requires: not provided at all, or
explicitly provided (where the provided value may itself be the explicit
"no filter desired" absence). -/
inductive FilterArg where
  | notProvided
  | provided (value : Option String)
  deriving Repr, DecidableEq

/-- Modelled from the spec: the filter resolution policy, evaluated once
before the first page request.  An explicitly supplied value is used
as-is; otherwise the IdentityContext's user identifier (when available)
is the fallback; otherwise no filter parameter at all. -/
def resolveFilter (arg : FilterArg) (identity : Option String) : Option String :=
  match arg with
  | .provided v => v
  | .notProvided => identity

/-- Modelled from the spec: the pagination loop of the resource-listing
client.  The remote service is modelled as the sequence of responses it
returns to successive requests (as the unit tests do with
`side_effect`).  The function returns the trace of requests issued and
either the concatenated resources or the first propagated failure.  The
resolved filter is fixed before the loop; each response's continuation
token, when present, is carried verbatim on the next request; the loop
stops at the first page without a token. -/
def paginate (filter : Option String) (tok : Option String) :
    List (Except SvcError Page) → List Request × Except SvcError (List Resource)
  | [] => ([⟨filter, tok⟩], .error .noResponse)
  | resp :: rest =>
    match resp with
    | .error e => ([⟨filter, tok⟩], .error e)
    | .ok page =>
      match page.nextToken with
      | none => ([⟨filter, tok⟩], .ok page.resources)
      | some t =>
        let out := paginate filter (some t) rest
        (⟨filter, tok⟩ :: out.1, out.2.map (fun rs => page.resources ++ rs))

/-- Modelled from the spec: `list_resources` (exemplified by
`api.list_queues`).  Resolves the filter once from the argument and the
ambient IdentityContext, then runs the pagination loop starting with no
continuation token. -/
def list_resources (arg : FilterArg) (identity : Option String)
    (responses : List (Except SvcError Page)) :
    List Request × Except SvcError (List Resource) :=
  paginate (resolveFilter arg identity) none responses

/-- A sequence of pages is well formed when it is the service's complete
answer to one logical call: at least one response, every page except the
last carries a continuation token, and the last page carries none. -/
def wellFormedPages : List Page → Bool
  | [] => false
  | [p] => p.nextToken.isNone
  | p :: q :: rest => p.nextToken.isSome && wellFormedPages (q :: rest)

/-- Every request issued by the pagination loop carries the same filter
value the loop was started with. -/
theorem paginate_filter_const (f tok : Option String)
    (rs : List (Except SvcError Page)) :
    ∀ req ∈ (paginate f tok rs).1, req.filter = f := by
  induction rs generalizing tok with
  | nil => intro req h; simp [paginate] at h; simp [h]
  | cons resp rest ih =>
    intro req h
    match resp with
    | .error e => simp [paginate] at h; simp [h]
    | .ok page =>
      match hpt : page.nextToken with
      | none => simp [paginate, hpt] at h; simp [h]
      | some t =>
        simp [paginate, hpt] at h
        rcases h with h | h
        · simp [h]
        · exact ih (some t) req h

/-- Unfolding of `paginate` on a page whose token continues the loop. -/
theorem paginate_cons_ok_some (f tok : Option String) (p : Page) (t : String)
    (ht : p.nextToken = some t) (rest : List (Except SvcError Page)) :
    paginate f tok (Except.ok p :: rest) =
      (⟨f, tok⟩ :: (paginate f (some t) rest).1,
       (paginate f (some t) rest).2.map (fun rs => p.resources ++ rs)) := by
  simp [paginate, ht]

/-- On a well-formed page sequence the loop returns the in-order
concatenation of all pages' resources. -/
theorem paginate_wellFormed_ok (f tok : Option String) (ps : List Page)
    (hwf : wellFormedPages ps = true) :
    (paginate f tok (ps.map Except.ok)).2 = .ok (ps.map Page.resources).flatten := by
  induction ps generalizing tok with
  | nil => simp [wellFormedPages] at hwf
  | cons p rest ih =>
    match rest with
    | [] =>
      simp [wellFormedPages, Option.isNone_iff_eq_none] at hwf
      simp [paginate, hwf]
    | q :: rest2 =>
      simp [wellFormedPages] at hwf
      obtain ⟨hsome, hwf2⟩ := hwf
      obtain ⟨t, ht⟩ := Option.isSome_iff_exists.mp hsome
      have hrec := ih (some t) hwf2
      simp only [List.map_cons] at hrec ⊢
      rw [paginate_cons_ok_some f tok p t ht]
      simp [hrec, Except.map]

/-- The first request of any pagination run carries exactly the filter
and the continuation token the run was started with. -/
theorem paginate_trace_head (f tok : Option String)
    (rs : List (Except SvcError Page)) :
    (paginate f tok rs).1.head? = some ⟨f, tok⟩ := by
  match rs with
  | [] => rfl
  | .error e :: rest => rfl
  | .ok page :: rest =>
    match hpt : page.nextToken with
    | none => simp [paginate, hpt]
    | some t => simp [paginate, hpt]

/-- On all-successful responses the loop issues one request per page of
the longest token-carrying prefix, plus the final request answered by
the first page without a continuation token (or by nothing, when the
responses run out while tokens keep coming). -/
theorem paginate_trace_length (f tok : Option String) (ps : List Page) :
    (paginate f tok (ps.map Except.ok)).1.length =
      (ps.takeWhile (fun p => p.nextToken.isSome)).length + 1 := by
  induction ps generalizing tok with
  | nil => simp [paginate]
  | cons p rest ih =>
    match hpt : p.nextToken with
    | none => simp [paginate, List.takeWhile_cons, hpt]
    | some t =>
      rw [List.map_cons, paginate_cons_ok_some f tok p t hpt]
      simp [List.takeWhile_cons, hpt, ih (some t)]

/-- On all-successful responses, request `i+1` carries verbatim the
continuation token of the `i`-th consumed page. -/
theorem paginate_token_chain (f tok : Option String) (ps : List Page) :
    ∀ i : Nat,
      ((paginate f tok (ps.map Except.ok)).1[i + 1]?).map Request.nextToken =
        ((ps.takeWhile (fun p => p.nextToken.isSome))[i]?).map Page.nextToken := by
  induction ps generalizing tok with
  | nil => intro i; simp [paginate]
  | cons p rest ih =>
    intro i
    match hpt : p.nextToken with
    | none => simp [paginate, List.takeWhile_cons, hpt]
    | some t =>
      rw [List.map_cons, paginate_cons_ok_some f tok p t hpt]
      simp only [List.takeWhile_cons, hpt, Option.isSome_some, if_true]
      match i with
      | 0 =>
        have hh := paginate_trace_head f (some t) (rest.map Except.ok)
        simp only [List.getElem?_cons_succ, List.getElem?_cons_zero]
        rw [← List.head?_eq_getElem?, hh]
        simp [hpt]
      | j + 1 =>
        simp only [List.getElem?_cons_succ]
        exact ih (some t) j

/-- If every page of a response prefix carries a continuation token and
the next response is a failure, the failure is the loop's outcome and
exactly one request was issued per response consumed, none after the
failure. -/
theorem paginate_error_prop (f tok : Option String) (ps : List Page)
    (e : SvcError) (rest : List (Except SvcError Page))
    (h : ∀ p ∈ ps, p.nextToken.isSome = true) :
    (paginate f tok (ps.map Except.ok ++ Except.error e :: rest)).2 =
        Except.error e ∧
    (paginate f tok (ps.map Except.ok ++ Except.error e :: rest)).1.length =
        ps.length + 1 := by
  induction ps generalizing tok with
  | nil => simp [paginate]
  | cons p rest2 ih =>
    have hp : p.nextToken.isSome := h p (List.mem_cons_self p rest2)
    obtain ⟨t, ht⟩ := Option.isSome_iff_exists.mp hp
    have hrest : ∀ q ∈ rest2, q.nextToken.isSome = true := fun q hq =>
      h q (List.mem_cons_of_mem p hq)
    rw [List.map_cons, List.cons_append, paginate_cons_ok_some f tok p t ht]
    obtain ⟨h1, h2⟩ := ih (some t) hrest
    simp [h1, h2, Except.map]

/-! ### Claims C1 through C7 -/

/-- C1: for every well-formed sequence of pages (each page except the
last carrying a continuation token, the last carrying none),
`list_resources` returns exactly the concatenation of all pages'
resource sequences in arrival order with within-page order preserved;
no resource is skipped or duplicated.  The single-empty-batch case
yields an empty result, not an error, as an instance. -/
theorem list_resources_concat_pages (arg : FilterArg) (identity : Option String)
    (ps : List Page) (hwf : wellFormedPages ps = true) :
    (list_resources arg identity (ps.map Except.ok)).2 =
      Except.ok (ps.map Page.resources).flatten :=
  paginate_wellFormed_ok _ none ps hwf

/-- Witness for C1: the single empty batch without token gives the empty
result, and the spec's three-page example (batches of sizes 2, 1, 2 with
tokens on all but the last page) gives the five resources in order. -/
theorem list_resources_concat_pages_witness :
    wellFormedPages [⟨[], none⟩] = true ∧
    (list_resources .notProvided none [Except.ok ⟨[], none⟩]).2 =
      Except.ok [] ∧
    (list_resources .notProvided none
        [Except.ok ⟨[1, 2], some "abc"⟩, Except.ok ⟨[3], some "def"⟩,
         Except.ok ⟨[4, 5], none⟩]).2 = Except.ok [1, 2, 3, 4, 5] := by
  refine ⟨by decide, ?_, ?_⟩
  · exact list_resources_concat_pages .notProvided none [⟨[], none⟩] (by decide)
  · exact list_resources_concat_pages .notProvided none
      [⟨[1, 2], some "abc"⟩, ⟨[3], some "def"⟩, ⟨[4, 5], none⟩] (by decide)

/-- C2: when the filter argument is explicitly supplied (including as an
explicit absent value), every underlying listing call carries exactly
that value, unchanged, whatever identity the session provides. -/
theorem list_resources_explicit_filter (v : Option String)
    (identity : Option String) (responses : List (Except SvcError Page)) :
    ∀ req ∈ (list_resources (.provided v) identity responses).1,
      req.filter = v :=
  paginate_filter_const v none responses

/-- Witness for C2: with explicit filter "otheruserid" and ambient
identity "userid", the sole issued request filters by "otheruserid". -/
theorem list_resources_explicit_filter_witness :
    ({ filter := some "otheruserid", nextToken := none } : Request).filter =
      some "otheruserid" :=
  list_resources_explicit_filter (some "otheruserid") (some "userid")
    [Except.ok ⟨[], none⟩] ⟨some "otheruserid", none⟩ (by decide)

/-- C3: when the filter argument is not provided and no IdentityContext
is available, every underlying listing call is issued with the filter
argument absent (not an empty string). -/
theorem list_resources_no_filter (responses : List (Except SvcError Page)) :
    ∀ req ∈ (list_resources .notProvided none responses).1,
      req.filter = none :=
  paginate_filter_const none none responses

/-- Witness for C3: with no filter argument and no identity, the sole
issued request carries no filter. -/
theorem list_resources_no_filter_witness :
    ({ filter := none, nextToken := none } : Request).filter = none :=
  list_resources_no_filter [Except.ok ⟨[], none⟩] ⟨none, none⟩ (by decide)

/-- C4: when the filter argument is not provided and the IdentityContext
provides user identifier `u`, every underlying listing call is issued
with the filter set to `u`. -/
theorem list_resources_identity_fallback (u : String)
    (responses : List (Except SvcError Page)) :
    ∀ req ∈ (list_resources .notProvided (some u) responses).1,
      req.filter = some u :=
  paginate_filter_const (some u) none responses

/-- Witness for C4: with no filter argument and identity "userid", the
sole issued request filters by "userid". -/
theorem list_resources_identity_fallback_witness :
    ({ filter := some "userid", nextToken := none } : Request).filter =
      some "userid" :=
  list_resources_identity_fallback "userid" [Except.ok ⟨[], none⟩]
    ⟨some "userid", none⟩ (by decide)

/-- C5: each request after the first carries verbatim the continuation
token of the page answering the previous request, and requests continue
exactly until the first page without a continuation token: the number of
requests is the length of the token-carrying page prefix plus one. -/
theorem list_resources_token_chain (arg : FilterArg) (identity : Option String)
    (ps : List Page) :
    (list_resources arg identity (ps.map Except.ok)).1.length =
        (ps.takeWhile (fun p => p.nextToken.isSome)).length + 1 ∧
    ∀ i : Nat,
      ((list_resources arg identity (ps.map Except.ok)).1[i + 1]?).map
          Request.nextToken =
        ((ps.takeWhile (fun p => p.nextToken.isSome))[i]?).map Page.nextToken :=
  ⟨paginate_trace_length _ none ps, paginate_token_chain _ none ps⟩

/-- C6: if any underlying page request fails, the failure propagates
unchanged to the caller, no truncated result is returned, and no page
request is retried: the requests issued are exactly one per response
consumed up to and including the failing one. -/
theorem list_resources_error_propagates (arg : FilterArg)
    (identity : Option String) (ps : List Page) (e : SvcError)
    (rest : List (Except SvcError Page))
    (h : ∀ p ∈ ps, p.nextToken.isSome = true) :
    (list_resources arg identity
        (ps.map Except.ok ++ Except.error e :: rest)).2 = Except.error e ∧
    (list_resources arg identity
        (ps.map Except.ok ++ Except.error e :: rest)).1.length =
      ps.length + 1 :=
  paginate_error_prop _ none ps e rest h

/-- Witness for C6: the second of three responses fails; the failure is
the outcome and exactly two requests were issued. -/
theorem list_resources_error_propagates_witness :
    (list_resources .notProvided none
        ([Except.ok ⟨[1, 2], some "abc"⟩] ++
          Except.error (.svc 7) :: [Except.ok ⟨[4, 5], none⟩])).2 =
        Except.error (.svc 7) ∧
    (list_resources .notProvided none
        ([Except.ok ⟨[1, 2], some "abc"⟩] ++
          Except.error (.svc 7) :: [Except.ok ⟨[4, 5], none⟩])).1.length = 2 := by
  have h := list_resources_error_propagates .notProvided none
    [⟨[1, 2], some "abc"⟩] (.svc 7) [Except.ok ⟨[4, 5], none⟩] (by decide)
  simpa using h

/-- C7: the filter is resolved once from the argument and the session
identity, and every request of the call carries that same resolved
filter; the identity is not consulted again between pages. -/
theorem list_resources_filter_resolved_once (arg : FilterArg)
    (identity : Option String) (responses : List (Except SvcError Page)) :
    ∀ req ∈ (list_resources arg identity responses).1,
      req.filter = resolveFilter arg identity :=
  paginate_filter_const (resolveFilter arg identity) none responses

/-- Witness for C7: across a two-page run with identity fallback, the
second request still carries the once-resolved filter. -/
theorem list_resources_filter_resolved_once_witness :
    ({ filter := some "userid", nextToken := some "abc" } : Request).filter =
      resolveFilter .notProvided (some "userid") :=
  list_resources_filter_resolved_once .notProvided (some "userid")
    [Except.ok ⟨[1], some "abc"⟩, Except.ok ⟨[2], none⟩]
    ⟨some "userid", some "abc"⟩ (by decide)

/-! ## The `deadline handle-web-url` CLI command
(`src/deadline/client/cli/groups/handle_web_url_command.py`) -/

/-- The result of `urllib.parse.urlsplit` as consumed by the command:
only the scheme, netloc and query components are read. -/
structure SplitUrl where
  scheme : String
  netloc : String
  query : String
  deriving Repr, DecidableEq

/-- The `deadline://` URL scheme name imported from `deadline_web_url`. -/
def DEADLINE_URL_SCHEME_NAME : String := "deadline"

/-- Observable outcome of one invocation of the command body:
a raised `DeadlineOperationError` with its message, a dispatched
`download_job_output` for the given URL, or an install/uninstall of the
URL handler. -/
inductive WebUrlOutcome where
  | opError (msg : String)
  | downloadDispatched (u : SplitUrl)
  | installed (all_users : Bool)
  | uninstalled (all_users : Bool)
  deriving Repr, DecidableEq

/-- Python truthiness of the optional `url` click argument: absent or
empty means falsy. -/
def urlTruthy : Option String → Bool
  | none => false
  | some s => !(s == "")

/-- The control flow of `cli_handle_web_url`.  `urlsplit` stands for
`urllib.parse.urlsplit` and `downloadOutput` for the whole
download-output branch body (query parsing, resource-id validation,
profile selection and `download_job_output`), both external to the
branching logic under verification. -/
def cli_handle_web_url (url : Option String)
    (install uninstall all_users : Bool) (urlsplit : String → SplitUrl)
    (downloadOutput : SplitUrl → WebUrlOutcome) : WebUrlOutcome :=
  if urlTruthy url then
    if install || uninstall || all_users then
      .opError
        "The --install, --uninstall and --all-users options cannot be used with a provided URL."
    else
      let split_url := urlsplit (url.getD "")
      if split_url.scheme ≠ DEADLINE_URL_SCHEME_NAME then
        .opError ("URL scheme " ++ split_url.scheme ++
          " is not supported. Only " ++ DEADLINE_URL_SCHEME_NAME ++
          " is supported.")
      else if split_url.netloc = "download-output" then
        downloadOutput split_url
      else
        .opError ("Command " ++ split_url.netloc ++
          " is not supported through handle-web-url.")
  else if install && uninstall then
    .opError "Only one of the --install and --uninstall options may be provided."
  else if install then
    .installed all_users
  else if uninstall then
    .uninstalled all_users
  else
    .opError "At least one of a URL, --install, or --uninstall must be provided."

/-- C8: with a non-empty url and any of the install, uninstall or
all-users flags set, the command raises `DeadlineOperationError`; the
outcome is the same for every URL parser and every download handler, so
the error is raised before the URL is parsed and before any handler
action. -/
theorem cli_handle_web_url_flags_conflict (url : String) (hurl : url ≠ "")
    (install uninstall all_users : Bool)
    (hflag : install = true ∨ uninstall = true ∨ all_users = true)
    (urlsplit : String → SplitUrl)
    (downloadOutput : SplitUrl → WebUrlOutcome) :
    cli_handle_web_url (some url) install uninstall all_users urlsplit
        downloadOutput =
      .opError
        "The --install, --uninstall and --all-users options cannot be used with a provided URL." := by
  have htr : urlTruthy (some url) = true := by
    simp [urlTruthy, hurl]
  have hor : (install || uninstall || all_users) = true := by
    rcases hflag with h | h | h <;> simp [h]
  simp [cli_handle_web_url, htr, hor]

/-- Witness for C8: url "deadline://download-output" with --install set
raises the options-conflict error. -/
theorem cli_handle_web_url_flags_conflict_witness :
    cli_handle_web_url (some "deadline://download-output") true false false
        (fun _ => ⟨"deadline", "download-output", ""⟩)
        (fun u => .downloadDispatched u) =
      .opError
        "The --install, --uninstall and --all-users options cannot be used with a provided URL." :=
  cli_handle_web_url_flags_conflict "deadline://download-output" (by decide)
    true false false (Or.inl rfl) _ _

/-- C9: with a non-empty url, if the parsed scheme is not the deadline
scheme, or the parsed command (netloc) is not "download-output", the
command raises `DeadlineOperationError` and never dispatches a
download: the outcome is an error for every download handler. -/
theorem cli_handle_web_url_unsupported (url : String) (hurl : url ≠ "")
    (install uninstall all_users : Bool) (urlsplit : String → SplitUrl)
    (downloadOutput : SplitUrl → WebUrlOutcome)
    (h : (urlsplit url).scheme ≠ DEADLINE_URL_SCHEME_NAME ∨
      (urlsplit url).netloc ≠ "download-output") :
    ∃ msg, cli_handle_web_url (some url) install uninstall all_users
        urlsplit downloadOutput = .opError msg := by
  have htr : urlTruthy (some url) = true := by
    simp [urlTruthy, hurl]
  by_cases hor : (install || uninstall || all_users) = true
  · exact
      ⟨"The --install, --uninstall and --all-users options cannot be used with a provided URL.",
        by simp [cli_handle_web_url, htr, hor]⟩
  · rw [Bool.not_eq_true] at hor
    by_cases hs : (urlsplit url).scheme = DEADLINE_URL_SCHEME_NAME
    · have hn : (urlsplit url).netloc ≠ "download-output" := by
        rcases h with h | h
        · exact absurd hs h
        · exact h
      exact ⟨"Command " ++ (urlsplit url).netloc ++
          " is not supported through handle-web-url.",
        by simp [cli_handle_web_url, htr, hor, hs, hn]⟩
    · exact ⟨"URL scheme " ++ (urlsplit url).scheme ++ " is not supported. Only " ++
          DEADLINE_URL_SCHEME_NAME ++ " is supported.",
        by simp [cli_handle_web_url, htr, hor, hs]⟩

/-- Witness for C9: an "https" URL raises; a deadline URL whose command
is "frobnicate" raises. -/
theorem cli_handle_web_url_unsupported_witness :
    (∃ msg, cli_handle_web_url (some "https://example.com") false false false
        (fun _ => ⟨"https", "example.com", ""⟩)
        (fun u => .downloadDispatched u) = .opError msg) ∧
    (∃ msg, cli_handle_web_url (some "deadline://frobnicate") false false false
        (fun _ => ⟨"deadline", "frobnicate", ""⟩)
        (fun u => .downloadDispatched u) = .opError msg) :=
  ⟨cli_handle_web_url_unsupported "https://example.com" (by decide)
      false false false _ _ (Or.inl (by decide)),
    cli_handle_web_url_unsupported "deadline://frobnicate" (by decide)
      false false false _ _ (Or.inr (by decide))⟩

/-! ## `SubmitJobToDeadlineDialog.refresh_deadline_settings`
(`src/deadline/client/ui/dialogs/submit_job_to_deadline_dialog.py`) -/

/-- The credential types reported by `api.AwsCredentialsType`; only the
Deadline Cloud Monitor login type is branched on by the dialog. -/
inductive AwsCredentialsType where
  | NOT_VALID
  | HOST_PROVIDED
  | DEADLINE_CLOUD_MONITOR_LOGIN
  deriving Repr, DecidableEq

/-- The fields of `DeadlineCredentialsStatusWidget` read by the dialog.
`deadline_authorized` mirrors a Python attribute that can be `True`,
`False` or `None` (while a background refresh is pending), so the `is
True` test in the source is an identity test, not mere truthiness. -/
structure CredsStatusBox where
  creds_type : AwsCredentialsType
  deadline_authorized : Option Bool
  deriving Repr, DecidableEq

/-- The configuration settings read by `refresh_deadline_settings`
through `get_setting`. -/
structure ConfigSettings where
  farm_id : String
  queue_id : String
  deriving Repr, DecidableEq

/-- The enabled/disabled state the dialog's buttons are left in. -/
structure DialogButtons where
  login_enabled : Bool
  logout_enabled : Bool
  submit_enabled : Bool
  deriving Repr, DecidableEq

/-- The button-state updates performed by
`SubmitJobToDeadlineDialog.refresh_deadline_settings`: Login and Logout
are enabled exactly for Deadline Cloud Monitor profiles, and Submit is
enabled when the API is authorized and both the farm and the queue are
configured. -/
def refresh_deadline_settings (creds : CredsStatusBox)
    (settings : ConfigSettings) : DialogButtons :=
  { login_enabled :=
      creds.creds_type == AwsCredentialsType.DEADLINE_CLOUD_MONITOR_LOGIN
    logout_enabled :=
      creds.creds_type == AwsCredentialsType.DEADLINE_CLOUD_MONITOR_LOGIN
    submit_enabled :=
      creds.deadline_authorized == some true &&
        settings.farm_id != "" && settings.queue_id != "" }

/-- C10: after `refresh_deadline_settings`, the Submit button is enabled
if and only if `deadline_authorized` is `True` and both the
`defaults.farm_id` and `defaults.queue_id` settings are non-empty. -/
theorem refresh_deadline_settings_submit_enabled (creds : CredsStatusBox)
    (settings : ConfigSettings) :
    (refresh_deadline_settings creds settings).submit_enabled = true ↔
      (creds.deadline_authorized = some true ∧ settings.farm_id ≠ "" ∧
        settings.queue_id ≠ "") := by
  simp [refresh_deadline_settings, and_assoc]

end DeadlineCloud
